import Mathlib

/-!
Verification development for the reXact-fps timing testbed.

The simulation core (`simulation.py`, the driver loop of `main.py`, and the
numeric helpers of `util.py` and `config.py`) is shallowly embedded below.
Positions, velocities and timers are modelled as rationals; the
velocity-normalization of `TargetState.set_params` / `TargetState.reset`
needs a square root and is modelled over the reals in a separate section.
-/

namespace ReXact

/-- Two-dimensional point/vector with rational coordinates
(embedding of pygame.Vector2 as used by the simulation core). -/
@[ext]
structure Vec2 where
  x : ℚ
  y : ℚ
deriving DecidableEq

/-- Embedding of util.clamp: lo if x < lo else hi if x > hi else x. -/
def clamp (x lo hi : ℚ) : ℚ :=
  if x < lo then lo else if x > hi then hi else x

/-- Embedding of util.distance_sq. -/
def distance_sq (x0 y0 x1 y1 : ℚ) : ℚ :=
  (x1 - x0) * (x1 - x0) + (y1 - y0) * (y1 - y0)

/-- Embedding of pygame.Vector2.lerp: componentwise a + (b - a) * t. -/
def vlerp (a b : Vec2) (t : ℚ) : Vec2 :=
  ⟨a.x + (b.x - a.x) * t, a.y + (b.y - a.y) * t⟩

/-! Configuration constants from config.py (only those the core consumes). -/

def CANVAS_MARGIN : ℤ := 12
def BALL_RADIUS : ℤ := 14
def BALL_SPEED_PX_S : ℚ := 700
def GLOW_DURATION_S : ℚ := 1/2
def TARGET_SIZE_PCT_DEFAULT : ℤ := 165
def TARGET_SIZE_PCT_MIN : ℤ := 120
def TARGET_SIZE_PCT_MAX : ℤ := 500
def TARGET_SPEED_PX_S_DEFAULT : ℤ := 170
def TARGET_SPEED_PX_S_MIN : ℤ := 60
def TARGET_SPEED_PX_S_MAX : ℤ := 420
def TARGET_FLASH_DURATION_S : ℚ := 35/100

/-- Embedding of config.BUTTON_COLOR_PALETTE. -/
def BUTTON_COLOR_PALETTE : List (ℤ × ℤ × ℤ) :=
  [(80, 160, 255), (255, 90, 90), (255, 110, 255), (120, 255, 130),
   (255, 210, 90), (90, 255, 255), (255, 150, 80), (220, 255, 90),
   (185, 135, 255), (125, 255, 225), (180, 200, 255), (200, 190, 255),
   (255, 130, 175), (130, 175, 255), (175, 255, 130), (255, 175, 130)]

/-- Embedding of config.get_button_color: the explicit BUTTON_COLORS map for
keys 0..17, then the palette indexed by button_index mod palette length
(Python's nonnegative modulo matches Int.emod). -/
def get_button_color (b : ℤ) : ℤ × ℤ × ℤ :=
  if b = 0 then (80, 160, 255)
  else if b = 1 then (255, 90, 90)
  else if b = 2 then (255, 110, 255)
  else if b = 3 then (120, 255, 130)
  else if b = 4 then (180, 200, 255)
  else if b = 5 then (90, 255, 255)
  else if b = 6 then (255, 210, 90)
  else if b = 7 then (185, 135, 255)
  else if b = 8 then (125, 255, 225)
  else if b = 9 then (255, 150, 80)
  else if b = 10 then (220, 255, 90)
  else if b = 11 then (130, 175, 255)
  else if b = 12 then (255, 130, 175)
  else if b = 13 then (175, 255, 130)
  else if b = 14 then (255, 175, 130)
  else if b = 15 then (200, 190, 255)
  else if b = 16 then (255, 120, 190)
  else if b = 17 then (120, 190, 255)
  else BUTTON_COLOR_PALETTE.getD (b % 16).toNat (235, 235, 235)

/-! Data model of simulation.py. -/

/-- Embedding of simulation.BallVisual. -/
structure BallVisual where
  active_blink_color : ℤ × ℤ × ℤ
  glow_elapsed : ℚ
deriving DecidableEq

/-- Embedding of simulation.TargetState (the fields engine_step touches). -/
structure TargetState where
  enabled : Bool
  pos : Vec2
  vel : Vec2
  size_pct : ℤ
  speed_px_s : ℤ
  radius_px : ℤ
  hit_flash_elapsed : ℚ
deriving DecidableEq

/-- Embedding of simulation.EngineState. -/
structure EngineState where
  pos : Vec2
  prev_pos : Vec2
  ball_radius : ℤ
  ball_speed : ℚ
  visual : BallVisual
  target : TargetState
deriving DecidableEq

/-! The engine stepping algorithm (simulation.engine_step), split into the
same blocks as the source: position update + clamp, glow timer + button
edges, target advance/reflection/flash/hit-test. -/

/-- Position update block of engine_step (simulation.py lines 126-131):
integrate stick axes scaled by ball_speed, or take the absolute override. -/
def step_pos_raw (s : EngineState) (dt stick_lx stick_ly : ℚ)
    (ball_override_pos : Option (ℚ × ℚ)) : Vec2 :=
  match ball_override_pos with
  | none => ⟨s.pos.x + (stick_lx * s.ball_speed) * dt,
             s.pos.y + (stick_ly * s.ball_speed) * dt⟩
  | some o => ⟨o.1, o.2⟩

/-- Position update block of engine_step, continued (simulation.py lines
133-135): clamp the raw position into the canvas on both axes. -/
def step_pos (s : EngineState) (dt : ℚ) (w h margin : ℤ)
    (stick_lx stick_ly : ℚ) (ball_override_pos : Option (ℚ × ℚ)) : Vec2 :=
  let p : Vec2 := step_pos_raw s dt stick_lx stick_ly ball_override_pos
  let br := s.ball_radius
  ⟨clamp p.x ((margin + br : ℤ) : ℚ) ((w - margin - br : ℤ) : ℚ),
   clamp p.y ((margin + br : ℤ) : ℚ) ((h - margin - br : ℤ) : ℚ)⟩

/-- Saturating timer advance used for both the glow timer (simulation.py
lines 137-140) and the hit-flash timer (lines 169-172): while below the
duration, add dt and cap at the duration. -/
def advance_timer (x dur dt : ℚ) : ℚ :=
  if x < dur then (if x + dt > dur then dur else x + dt) else x

/-- Visual block of engine_step (simulation.py lines 137-144): advance the
saturating glow timer, then apply every button press-edge in order, each
setting the blink color and resetting the glow timer. -/
def step_visual (v : BallVisual) (dt : ℚ) (button_down_edges : List ℤ) : BallVisual :=
  let v1 : BallVisual := { v with glow_elapsed := advance_timer v.glow_elapsed GLOW_DURATION_S dt }
  button_down_edges.foldl
    (fun _vv b => ⟨get_button_color b, 0⟩) v1

/-- Per-axis wall reflection of engine_step (simulation.py lines 155-167):
below the low bound, clamp there and make the velocity component +|v|;
above the high bound, clamp there and make it -|v|; otherwise unchanged. -/
def reflect1 (p v lo hi : ℚ) : ℚ × ℚ :=
  if p < lo then (lo, |v|)
  else if p > hi then (hi, -|v|)
  else (p, v)

/-- Target block of engine_step (simulation.py lines 146-178): advance the
target by vel*dt, reflect per axis at the canvas bounds, advance the
saturating hit-flash timer, and on a button edge reset it when the main
entity (at its post-update position) is inside the target. -/
def step_target (t : TargetState) (dt : ℚ) (w h margin br : ℤ)
    (new_pos : Vec2) (any_button_edge : Bool) : TargetState :=
  if t.enabled then
    let p0 : Vec2 := ⟨t.pos.x + t.vel.x * dt, t.pos.y + t.vel.y * dt⟩
    let tr := t.radius_px
    let min_tx : ℚ := ((margin + tr : ℤ) : ℚ)
    let max_tx : ℚ := ((w - margin - tr : ℤ) : ℚ)
    let min_ty : ℚ := ((margin + tr : ℤ) : ℚ)
    let max_ty : ℚ := ((h - margin - tr : ℤ) : ℚ)
    let xv : ℚ × ℚ := reflect1 p0.x t.vel.x min_tx max_tx
    let yv : ℚ × ℚ := reflect1 p0.y t.vel.y min_ty max_ty
    let hf1 := advance_timer t.hit_flash_elapsed TARGET_FLASH_DURATION_S dt
    let hf2 :=
      if any_button_edge then
        let inner : ℚ := max 0 ((tr - br : ℤ) : ℚ)
        let d2 := distance_sq new_pos.x new_pos.y xv.1 yv.1
        if d2 ≤ inner * inner then 0 else hf1
      else hf1
    { t with pos := ⟨xv.1, yv.1⟩, vel := ⟨xv.2, yv.2⟩, hit_flash_elapsed := hf2 }
  else t

/-- Embedding of simulation.engine_step: snapshot prev_pos, run the three
blocks, return the new state (the Python function mutates in place). -/
def engine_step (s : EngineState) (dt : ℚ) (w h margin : ℤ)
    (stick_lx stick_ly : ℚ) (button_down_edges : List ℤ)
    (any_button_edge : Bool) (ball_override_pos : Option (ℚ × ℚ)) : EngineState :=
  let p2 := step_pos s dt w h margin stick_lx stick_ly ball_override_pos
  { s with
    prev_pos := s.pos
    pos := p2
    visual := step_visual s.visual dt button_down_edges
    target := step_target s.target dt w h margin s.ball_radius p2 any_button_edge }

/-! The main-loop driver (main.py): frame delta-time cap, accumulator drain,
render-time interpolation, and the controller real-time cursor estimator. -/

/-- Frame delta-time of main.py lines 465-467: frame_dt = min(now - last_time, 0.25). -/
def frameDt (raw : ℚ) : ℚ := min raw (1/4)

/-- Engine tick length of main.py line 568: engine_dt = 1.0 / float(max(1, engine_fps)). -/
def engineDtOf (engine_fps : ℤ) : ℚ := 1 / ((max 1 engine_fps : ℤ) : ℚ)

/-- Accumulator drain of main.py lines 570-622: while accumulator >= engine_dt,
run one tick and subtract engine_dt. Returns the number of ticks run and the
leftover accumulator. The source loop's engine_dt is always positive (it is
1/max(1, fps)); the 0 < dt guard makes the embedding total. -/
def drainLoop (dt acc : ℚ) : ℕ × ℚ :=
  if h : 0 < dt ∧ dt ≤ acc then
    let r := drainLoop dt (acc - dt)
    (r.1 + 1, r.2)
  else (0, acc)
termination_by ⌊acc / dt⌋₊
decreasing_by
  obtain ⟨hdt, hle⟩ := h
  have h1 : (1 : ℚ) ≤ acc / dt := (one_le_div hdt).mpr hle
  have hn : 1 ≤ ⌊acc / dt⌋₊ := Nat.le_floor (by exact_mod_cast h1)
  have hsub : (acc - dt) / dt = acc / dt - 1 := by
    field_simp
  rcases le_or_lt 0 ((acc - dt) / dt) with h0 | h0
  · rw [Nat.floor_lt h0, hsub]
    have h2 : acc / dt < ⌊acc / dt⌋₊ + 1 := Nat.lt_floor_add_one _
    linarith
  · have hz : ⌊(acc - dt) / dt⌋₊ = 0 := Nat.floor_eq_zero.mpr (h0.trans_le zero_le_one)
    omega

/-- Input sample consumed by one engine tick (input_devices.ControllerSample
plus the mouse-mode absolute override that main.py passes alongside it). -/
structure InputSample where
  lx : ℚ
  ly : ℚ
  button_down_edges : List ℤ
  any_button_edge : Bool
  ball_override_pos : Option (ℚ × ℚ)
deriving DecidableEq

/-- Apply engine_step to one InputSample. -/
def stepWith (w h margin : ℤ) (dt : ℚ) (s : EngineState) (inp : InputSample) : EngineState :=
  engine_step s dt w h margin inp.lx inp.ly inp.button_down_edges
    inp.any_button_edge inp.ball_override_pos

/-- Run n engine ticks, tick i consuming inputs i (main.py samples input
freshly inside each iteration of the drain loop). -/
def stepN (w h margin : ℤ) (dt : ℚ) (inputs : ℕ → InputSample) :
    ℕ → EngineState → EngineState
  | 0, s => s
  | n + 1, s =>
    stepN w h margin dt (fun i => inputs (i + 1)) n (stepWith w h margin dt s (inputs 0))

/-- Controller real-time cursor update of main.py lines 471-493: if both
deadzone-shaped axes are exactly zero, snap the cursor to the simulated pos;
otherwise integrate axis * ball_speed over the frame delta-time and clamp
to the canvas bounds. -/
def cursor_update (lx ly : ℚ) (cursor pos : Vec2) (ball_speed frame_dt : ℚ)
    (w h margin br : ℤ) : Vec2 :=
  if lx = 0 ∧ ly = 0 then pos
  else
    ⟨clamp (cursor.x + (lx * ball_speed) * frame_dt)
        ((margin + br : ℤ) : ℚ) ((w - margin - br : ℤ) : ℚ),
     clamp (cursor.y + (ly * ball_speed) * frame_dt)
        ((margin + br : ℤ) : ℚ) ((h - margin - br : ℤ) : ℚ)⟩

/-- Driver state shared across frames: the engine state, the controller
cursor, and the accumulator. -/
structure FrameState where
  engine : EngineState
  controller_cursor : Vec2
  accumulator : ℚ
deriving DecidableEq

/-- One controller-mode iteration of the main loop (main.py lines 463-622):
cap the frame delta, add it to the accumulator, update the real-time cursor
(before any tick, from the pre-tick simulated pos), then drain the
accumulator with engine ticks. -/
def frame_update (fs : FrameState) (raw_dt lx ly : ℚ)
    (tick_inputs : ℕ → InputSample) (engine_fps w h margin : ℤ) : FrameState :=
  let frame_dt := frameDt raw_dt
  let acc := fs.accumulator + frame_dt
  let cursor := cursor_update lx ly fs.controller_cursor fs.engine.pos
    fs.engine.ball_speed frame_dt w h margin fs.engine.ball_radius
  let engine_dt := engineDtOf engine_fps
  let d := drainLoop engine_dt acc
  { engine := stepN w h margin engine_dt tick_inputs d.1 fs.engine
    controller_cursor := cursor
    accumulator := d.2 }

/-- Render position of main.py lines 638-642: when interpolation is on and
engine_dt > 0, lerp prev_pos toward pos by alpha = clamp(accumulator /
engine_dt, 0, 1); otherwise render pos directly. -/
def renderPos (interp_enabled : Bool) (engine_dt accumulator : ℚ)
    (prev_pos pos : Vec2) : Vec2 :=
  if interp_enabled ∧ engine_dt > 0 then
    vlerp prev_pos pos (clamp (accumulator / engine_dt) 0 1)
  else pos

/-! Real-valued model of the target-velocity computations of
TargetState.set_params and TargetState.reset (simulation.py lines 36-60).
Vector normalization divides by a Euclidean length, so this part is
embedded over the reals. -/

/-- Embedding of pygame.Vector2.length_squared. -/
def lengthSqR (v : ℝ × ℝ) : ℝ := v.1 * v.1 + v.2 * v.2

/-- Embedding of pygame.Vector2.normalize: divide both components by the
Euclidean length. -/
noncomputable def normalizeR (v : ℝ × ℝ) : ℝ × ℝ :=
  (v.1 / Real.sqrt (lengthSqR v), v.2 / Real.sqrt (lengthSqR v))

/-- Integer clamp: set_params computes int(clamp(float(x), lo, hi)), which
for integer x and integer bounds is the integer clamp. -/
def clamp_int (x lo hi : ℤ) : ℤ :=
  if x < lo then lo else if x > hi then hi else x

/-- Velocity computation of TargetState.set_params (simulation.py lines
36-43): clamp the configured speed, re-seed a (near-)zero velocity to
(1, 0), then scale the normalized velocity by the clamped speed. -/
noncomputable def set_params_vel (vel : ℝ × ℝ) (speed_px_s : ℤ) : ℝ × ℝ :=
  let sp := clamp_int speed_px_s TARGET_SPEED_PX_S_MIN TARGET_SPEED_PX_S_MAX
  let v := if lengthSqR vel < 1 / 1000000000 then ((1 : ℝ), (0 : ℝ)) else vel
  let n := normalizeR v
  (n.1 * (sp : ℝ), n.2 * (sp : ℝ))

/-- Velocity computation of TargetState.reset (simulation.py lines 50-54):
seed from a random angle, re-seed a (near-)zero velocity to (1, 0), then
scale the normalized velocity by the stored speed. -/
noncomputable def reset_vel (ang : ℝ) (speed_px_s : ℤ) : ℝ × ℝ :=
  let v0 : ℝ × ℝ := (Real.cos ang, Real.sin ang)
  let v := if lengthSqR v0 < 1 / 1000000000 then ((1 : ℝ), (0 : ℝ)) else v0
  let n := normalizeR v
  (n.1 * (speed_px_s : ℝ), n.2 * (speed_px_s : ℝ))

/-! Concrete states used to instantiate hypotheses of the theorems below. -/

/-- Concrete engine state: the 1280x720 startup state of make_initial_state
(ball at the window center, target disabled). -/
def sampleState : EngineState where
  pos := ⟨640, 360⟩
  prev_pos := ⟨640, 360⟩
  ball_radius := 14
  ball_speed := 700
  visual := ⟨(235, 235, 235), 1/2⟩
  target :=
    { enabled := false, pos := ⟨832, 324⟩, vel := ⟨170, 0⟩, size_pct := 165,
      speed_px_s := 170, radius_px := 23, hit_flash_elapsed := 35/100 }

/-- Concrete engine state with the target enabled (as after set_target_enabled),
the ball sitting on the target's center. -/
def targetOnState : EngineState where
  pos := ⟨832, 324⟩
  prev_pos := ⟨832, 324⟩
  ball_radius := 14
  ball_speed := 700
  visual := ⟨(235, 235, 235), 1/2⟩
  target :=
    { enabled := true, pos := ⟨832, 324⟩, vel := ⟨170, 0⟩, size_pct := 165,
      speed_px_s := 170, radius_px := 23, hit_flash_elapsed := 35/100 }

/-- Concrete driver state for the sample engine state. -/
def sampleFrame : FrameState where
  engine := sampleState
  controller_cursor := ⟨640, 360⟩
  accumulator := 0

/-- Main-entity canvas bounds invariant on both axes. -/
def in_bounds (s : EngineState) (w h margin : ℤ) : Prop :=
  ((margin + s.ball_radius : ℤ) : ℚ) ≤ s.pos.x ∧
  s.pos.x ≤ ((w - margin - s.ball_radius : ℤ) : ℚ) ∧
  ((margin + s.ball_radius : ℤ) : ℚ) ≤ s.pos.y ∧
  s.pos.y ≤ ((h - margin - s.ball_radius : ℤ) : ℚ)

instance (s : EngineState) (w h margin : ℤ) : Decidable (in_bounds s w h margin) := by
  unfold in_bounds; infer_instance

/-! Helper lemmas about the numeric building blocks. -/

theorem clamp_mem (x lo hi : ℚ) (hlh : lo ≤ hi) :
    lo ≤ clamp x lo hi ∧ clamp x lo hi ≤ hi := by
  unfold clamp
  split_ifs with h1 h2 <;> constructor <;> linarith

theorem clamp_eq_of_mem (x lo hi : ℚ) (h1 : lo ≤ x) (h2 : x ≤ hi) :
    clamp x lo hi = x := by
  unfold clamp
  split_ifs <;> linarith

theorem advance_timer_pos (x dur dt : ℚ) (hx : 0 ≤ x) (hdur : 0 < dur)
    (hdt : 0 < dt) : 0 < advance_timer x dur dt := by
  unfold advance_timer
  split_ifs <;> linarith

theorem reflect1_abs (p v lo hi : ℚ) : |(reflect1 p v lo hi).2| = |v| := by
  unfold reflect1
  split_ifs <;> simp [abs_abs]

theorem reflect1_low (p v lo hi : ℚ) (h : p < lo) :
    reflect1 p v lo hi = (lo, |v|) := by
  unfold reflect1
  rw [if_pos h]

theorem reflect1_high (p v lo hi : ℚ) (hlh : lo ≤ hi) (h : p > hi) :
    reflect1 p v lo hi = (hi, -|v|) := by
  unfold reflect1
  rw [if_neg (by linarith), if_pos h]

theorem engineDtOf_pos (fps : ℤ) : 0 < engineDtOf fps := by
  unfold engineDtOf
  have h1 : (1 : ℤ) ≤ max 1 fps := le_max_left _ _
  have h2 : (0 : ℚ) < ((max 1 fps : ℤ) : ℚ) := by exact_mod_cast lt_of_lt_of_le zero_lt_one h1
  exact one_div_pos.mpr h2

theorem natFloor_succ_of_one_le (a : ℚ) (h : 1 ≤ a) : ⌊a⌋₊ = ⌊a - 1⌋₊ + 1 := by
  have h0 : (0 : ℚ) ≤ a - 1 := by linarith
  have hle : ((⌊a - 1⌋₊ : ℚ)) ≤ a - 1 := Nat.floor_le h0
  have hlt : a - 1 < ⌊a - 1⌋₊ + 1 := Nat.lt_floor_add_one _
  rw [Nat.floor_eq_iff (by linarith)]
  push_cast
  constructor <;> linarith

theorem drainLoop_eq (dt : ℚ) (hdt : 0 < dt) (acc : ℚ) :
    drainLoop dt acc = (⌊acc / dt⌋₊, acc - (⌊acc / dt⌋₊ : ℚ) * dt) := by
  induction acc using drainLoop.induct dt with
  | case1 acc h ih =>
    obtain ⟨hd, hle⟩ := h
    rw [drainLoop, dif_pos (⟨hd, hle⟩ : 0 < dt ∧ dt ≤ acc)]
    dsimp only
    rw [ih]
    have h1 : (1 : ℚ) ≤ acc / dt := (one_le_div hdt).mpr hle
    have hsub : (acc - dt) / dt = acc / dt - 1 := by field_simp
    have hfl : ⌊acc / dt⌋₊ = ⌊(acc - dt) / dt⌋₊ + 1 := by
      rw [hsub]; exact natFloor_succ_of_one_le _ h1
    rw [hfl]
    simp only [Prod.mk.injEq]
    constructor
    · trivial
    · push_cast; ring
  | case2 acc h =>
    have hacc : acc < dt := by
      by_contra hc
      exact h ⟨hdt, le_of_not_lt hc⟩
    rw [drainLoop, dif_neg h]
    have hz : ⌊acc / dt⌋₊ = 0 := Nat.floor_eq_zero.mpr ((div_lt_one hdt).mpr hacc)
    rw [hz]
    simp only [Prod.mk.injEq]
    constructor
    · trivial
    · push_cast; ring

theorem drainLoop_snd_lt (dt acc : ℚ) (hdt : 0 < dt) : (drainLoop dt acc).2 < dt := by
  rw [drainLoop_eq dt hdt acc]
  have h2 : acc / dt < ⌊acc / dt⌋₊ + 1 := Nat.lt_floor_add_one _
  rw [div_lt_iff₀ hdt] at h2
  push_cast at h2 ⊢
  linarith

theorem foldl_blink_last (l : List ℤ) (hne : l ≠ []) (v : BallVisual) :
    l.foldl (fun _vv b => (⟨get_button_color b, 0⟩ : BallVisual)) v
      = ⟨get_button_color (l.getLast hne), 0⟩ := by
  induction l generalizing v with
  | nil => exact absurd rfl hne
  | cons a t ih =>
    cases t with
    | nil => simp [List.getLast]
    | cons b t2 =>
      have hne2 : (b :: t2) ≠ ([] : List ℤ) := by simp
      rw [List.foldl_cons, ih hne2, List.getLast_cons hne2]

theorem sorted_le_getLast (l : List ℤ) (hne : l ≠ [])
    (hs : l.Sorted (· ≤ ·)) : ∀ b ∈ l, b ≤ l.getLast hne := by
  induction l with
  | nil => exact absurd rfl hne
  | cons a t ih =>
    intro b hb
    cases t with
    | nil =>
      simp at hb
      simp [List.getLast, hb]
    | cons c t2 =>
      have hne2 : (c :: t2) ≠ ([] : List ℤ) := by simp
      rw [List.getLast_cons hne2]
      rcases List.mem_cons.mp hb with hba | hbt
      · subst hba
        have h1 : b ≤ c := (List.sorted_cons.mp hs).1 c (by simp)
        have h2 := ih (by simp) (List.sorted_cons.mp hs).2 c (by simp)
        exact h1.trans h2
      · exact ih (by simp) (List.sorted_cons.mp hs).2 b hbt

theorem ne_zero_of_lengthSqR_pos (v : ℝ × ℝ) (h : 0 < lengthSqR v) :
    v ≠ ((0 : ℝ), (0 : ℝ)) := by
  intro he
  rw [he] at h
  simp [lengthSqR] at h

theorem lengthSqR_normalize_scale (v : ℝ × ℝ) (hv : 0 < lengthSqR v) (c : ℝ) :
    lengthSqR ((normalizeR v).1 * c, (normalizeR v).2 * c) = c ^ 2 := by
  have hs : Real.sqrt (lengthSqR v) ≠ 0 := ne_of_gt (Real.sqrt_pos.mpr hv)
  have h2 : Real.sqrt (lengthSqR v) * Real.sqrt (lengthSqR v) = lengthSqR v :=
    Real.mul_self_sqrt hv.le
  unfold lengthSqR at h2 hv ⊢
  unfold normalizeR
  unfold lengthSqR
  field_simp
  nlinarith [h2, hv]

/-- Input sample with centered axes, no edges and no override. -/
def zeroSample : InputSample := ⟨0, 0, [], false, none⟩

theorem engine_step_zero (s : EngineState) (dt : ℚ) (w h margin : ℤ)
    (hb : in_bounds s w h margin) :
    (engine_step s dt w h margin 0 0 [] false none).pos = s.pos ∧
    (engine_step s dt w h margin 0 0 [] false none).prev_pos = s.pos := by
  obtain ⟨h1, h2, h3, h4⟩ := hb
  constructor
  · show step_pos s dt w h margin 0 0 none = s.pos
    unfold step_pos step_pos_raw
    dsimp only
    simp only [zero_mul, add_zero]
    rw [clamp_eq_of_mem _ _ _ h1 h2, clamp_eq_of_mem _ _ _ h3 h4]
  · rfl

theorem stepN_zero_invariant (w h margin : ℤ) (dt : ℚ) :
    ∀ (n : ℕ) (s : EngineState), in_bounds s w h margin →
      (stepN w h margin dt (fun _ => zeroSample) n s).pos = s.pos ∧
      in_bounds (stepN w h margin dt (fun _ => zeroSample) n s) w h margin ∧
      (0 < n → (stepN w h margin dt (fun _ => zeroSample) n s).prev_pos = s.pos) := by
  intro n
  induction n with
  | zero =>
    intro s hb
    exact ⟨rfl, hb, fun hlt => absurd hlt (lt_irrefl 0)⟩
  | succ n ih =>
    intro s hb
    have hz := engine_step_zero s dt w h margin hb
    have hpos : (stepWith w h margin dt s zeroSample).pos = s.pos := hz.1
    have hprev : (stepWith w h margin dt s zeroSample).prev_pos = s.pos := hz.2
    have hb2 : in_bounds (stepWith w h margin dt s zeroSample) w h margin := by
      unfold in_bounds at hb ⊢
      rw [show (stepWith w h margin dt s zeroSample).ball_radius = s.ball_radius from rfl,
        hpos]
      exact hb
    have ihs := ih (stepWith w h margin dt s zeroSample) hb2
    rw [stepN]
    refine ⟨by rw [ihs.1, hpos], by exact ihs.2.1, fun _hlt => ?_⟩
    rcases Nat.eq_zero_or_pos n with hn0 | hnpos
    · subst hn0
      show (stepWith w h margin dt s zeroSample).prev_pos = s.pos
      exact hprev
    · rw [ihs.2.2 hnpos, hpos]

/-- C2: for every dt > 0, window dimensions, margin and input sample (axes in
[-1, 1], any edge list, with or without an absolute override position), if the
starting pos lies within [margin+radius, dim-margin-radius] on both axes, the
pos after engine_step still lies within those bounds on both axes. -/
theorem c2_pos_stays_in_bounds (s : EngineState) (dt : ℚ) (w h margin : ℤ)
    (lx ly : ℚ) (edges : List ℤ) (ae : Bool) (ov : Option (ℚ × ℚ))
    (hdt : 0 < dt) (hlx1 : -1 ≤ lx) (hlx2 : lx ≤ 1) (hly1 : -1 ≤ ly) (hly2 : ly ≤ 1)
    (hb : in_bounds s w h margin) :
    in_bounds (engine_step s dt w h margin lx ly edges ae ov) w h margin := by
  obtain ⟨h1, h2, h3, h4⟩ := hb
  have hx : ((margin + s.ball_radius : ℤ) : ℚ) ≤ ((w - margin - s.ball_radius : ℤ) : ℚ) :=
    h1.trans h2
  have hy : ((margin + s.ball_radius : ℤ) : ℚ) ≤ ((h - margin - s.ball_radius : ℤ) : ℚ) :=
    h3.trans h4
  show in_bounds
    { s with
      prev_pos := s.pos
      pos := step_pos s dt w h margin lx ly ov
      visual := step_visual s.visual dt edges
      target := step_target s.target dt w h margin s.ball_radius
        (step_pos s dt w h margin lx ly ov) ae } w h margin
  unfold in_bounds step_pos
  dsimp only
  exact ⟨(clamp_mem _ _ _ hx).1, (clamp_mem _ _ _ hx).2,
    (clamp_mem _ _ _ hy).1, (clamp_mem _ _ _ hy).2⟩

/-- Witness for c2_pos_stays_in_bounds at the startup state with axes
(1/2, -1/3) and dt = 1/120. -/
theorem c2_pos_stays_in_bounds_witness :
    (0 : ℚ) < 1/120 ∧ in_bounds sampleState 1280 720 12 ∧
    in_bounds (engine_step sampleState (1/120) 1280 720 12 (1/2) (-1/3) [] false none)
      1280 720 12 :=
  ⟨by norm_num, by decide,
    c2_pos_stays_in_bounds sampleState (1/120) 1280 720 12 (1/2) (-1/3) [] false none
      (by norm_num) (by norm_num) (by norm_num) (by norm_num) (by norm_num) (by decide)⟩

/-- C9: from an in-bounds starting state, engine_step with zero axes, no
override and no button edges does not move pos; prev_pos is set to the pos
before the call; and any number of repeated such calls leaves pos stationary
with prev_pos equal to it. -/
theorem c9_zero_input_stationary (s : EngineState) (dt : ℚ) (w h margin : ℤ)
    (hb : in_bounds s w h margin) :
    (engine_step s dt w h margin 0 0 [] false none).pos = s.pos ∧
    (engine_step s dt w h margin 0 0 [] false none).prev_pos = s.pos ∧
    (∀ n : ℕ, (stepN w h margin dt (fun _ => zeroSample) n s).pos = s.pos) ∧
    (∀ n : ℕ, 0 < n →
      (stepN w h margin dt (fun _ => zeroSample) n s).prev_pos = s.pos) := by
  have h1 := engine_step_zero s dt w h margin hb
  exact ⟨h1.1, h1.2,
    fun n => (stepN_zero_invariant w h margin dt n s hb).1,
    fun n hn => (stepN_zero_invariant w h margin dt n s hb).2.2 hn⟩

/-- Witness for c9_zero_input_stationary at the startup state, three ticks. -/
theorem c9_zero_input_stationary_witness :
    in_bounds sampleState 1280 720 12 ∧
    (engine_step sampleState (1/120) 1280 720 12 0 0 [] false none).pos = sampleState.pos ∧
    (stepN 1280 720 12 (1/120) (fun _ => zeroSample) 3 sampleState).pos = sampleState.pos ∧
    (stepN 1280 720 12 (1/120) (fun _ => zeroSample) 3 sampleState).prev_pos
      = sampleState.pos := by
  have h := c9_zero_input_stationary sampleState (1/120) 1280 720 12 (by decide)
  exact ⟨by decide, h.1, h.2.2.1 3, h.2.2.2 3 (by norm_num)⟩

/-- C10: when the target is disabled, engine_step leaves the whole target
state (every field) exactly unchanged, for every dt, axes, edges and
override. -/
theorem c10_disabled_target_unchanged (s : EngineState) (dt : ℚ) (w h margin : ℤ)
    (lx ly : ℚ) (edges : List ℤ) (ae : Bool) (ov : Option (ℚ × ℚ))
    (hdis : s.target.enabled = false) :
    (engine_step s dt w h margin lx ly edges ae ov).target = s.target := by
  show step_target s.target dt w h margin s.ball_radius
    (step_pos s dt w h margin lx ly ov) ae = s.target
  unfold step_target
  rw [hdis]
  simp

/-- Witness for c10_disabled_target_unchanged at the startup state (whose
target is disabled). -/
theorem c10_disabled_target_unchanged_witness :
    sampleState.target.enabled = false ∧
    (engine_step sampleState (1/120) 1280 720 12 (1/2) (1/2) [0] true none).target
      = sampleState.target :=
  ⟨rfl, c10_disabled_target_unchanged sampleState (1/120) 1280 720 12 (1/2) (1/2)
    [0] true none rfl⟩

/-- C4 counterexample: the claim says the surviving color is that of the
highest-index edge of the tick's edge set. The mouse path of main.py
(mapping {0: 0, 2: 1, 1: 2} over mouse indices 0, 1, 2) passes the edge
tuple (2, 1) when middle and right mouse buttons edge in one tick;
engine_step applies the edges in tuple order, so button 1's color survives,
not button 2's, although 2 is the highest index present. -/
theorem c4_counterexample :
    (engine_step sampleState (1/120) 1280 720 12 0 0 [2, 1] true none).visual.active_blink_color
        = get_button_color 1 ∧
    (engine_step sampleState (1/120) 1280 720 12 0 0 [2, 1] true none).visual.active_blink_color
        ≠ get_button_color 2 ∧
    (2 : ℤ) ∈ ([2, 1] : List ℤ) ∧
    (∀ b ∈ ([2, 1] : List ℤ), b ≤ 2) := by
  refine ⟨by decide, by decide, by decide, by decide⟩

/-- C4 amended: engine_step applies button edges in the order they appear in
the edge tuple, later entries overriding earlier ones; after a call with a
non-empty edge tuple, glow_elapsed = 0 and active_blink_color is the mapped
color of the LAST entry of the tuple. When the tuple is sorted in increasing
button-index order (as controller sampling produces), that last entry is the
highest index present. -/
theorem c4_last_edge_color_wins (s : EngineState) (dt : ℚ) (w h margin : ℤ)
    (lx ly : ℚ) (edges : List ℤ) (ae : Bool) (ov : Option (ℚ × ℚ))
    (hne : edges ≠ []) :
    (engine_step s dt w h margin lx ly edges ae ov).visual.active_blink_color
        = get_button_color (edges.getLast hne) ∧
    (engine_step s dt w h margin lx ly edges ae ov).visual.glow_elapsed = 0 ∧
    (edges.Sorted (· ≤ ·) → ∀ b ∈ edges, b ≤ edges.getLast hne) := by
  have hv : (engine_step s dt w h margin lx ly edges ae ov).visual
      = step_visual s.visual dt edges := rfl
  rw [hv]
  simp only [step_visual]
  rw [foldl_blink_last edges hne]
  exact ⟨rfl, rfl, fun hs => sorted_le_getLast edges hne hs⟩

/-- Witness for c4_last_edge_color_wins at the unsorted edge tuple (2, 1). -/
theorem c4_last_edge_color_wins_witness :
    ([2, 1] : List ℤ) ≠ [] ∧
    (engine_step sampleState (1/120) 1280 720 12 0 0 [2, 1] true none).visual.active_blink_color
        = get_button_color (([2, 1] : List ℤ).getLast (by decide)) ∧
    (engine_step sampleState (1/120) 1280 720 12 0 0 [2, 1] true none).visual.glow_elapsed = 0 := by
  have h := c4_last_edge_color_wins sampleState (1/120) 1280 720 12 0 0 [2, 1] true none
    (by decide)
  exact ⟨by decide, h.1, h.2.1⟩

/-- C5: with interpolation enabled and engine_dt > 0, the render position is
vlerp prev_pos pos with alpha = clamp(accumulator/engine_dt, 0, 1); alpha = 0
renders exactly at prev_pos, alpha = 1 renders exactly at pos; with
interpolation disabled the render position is pos regardless of the
accumulator. -/
theorem c5_render_interpolation (engine_dt acc : ℚ) (prev_pos pos : Vec2) :
    (0 < engine_dt →
      renderPos true engine_dt acc prev_pos pos
        = vlerp prev_pos pos (clamp (acc / engine_dt) 0 1)) ∧
    (0 < engine_dt → clamp (acc / engine_dt) 0 1 = 0 →
      renderPos true engine_dt acc prev_pos pos = prev_pos) ∧
    (0 < engine_dt → clamp (acc / engine_dt) 0 1 = 1 →
      renderPos true engine_dt acc prev_pos pos = pos) ∧
    renderPos false engine_dt acc prev_pos pos = pos := by
  refine ⟨fun hdt => ?_, fun hdt h0 => ?_, fun hdt h1 => ?_, ?_⟩
  · unfold renderPos
    rw [if_pos ⟨rfl, hdt⟩]
  · unfold renderPos
    rw [if_pos ⟨rfl, hdt⟩, h0]
    unfold vlerp
    ext <;> simp
  · unfold renderPos
    rw [if_pos ⟨rfl, hdt⟩, h1]
    unfold vlerp
    ext <;> simp
  · simp [renderPos]

/-- Witness for c5_render_interpolation at engine_dt = 1/60, accumulator
1/120 (alpha one half) and the endpoints 0 and 1/60. -/
theorem c5_render_interpolation_witness :
    (0 : ℚ) < 1/60 ∧
    renderPos true (1/60) (1/120) ⟨100, 200⟩ ⟨110, 220⟩
      = vlerp ⟨100, 200⟩ ⟨110, 220⟩ (clamp ((1/120 : ℚ) / (1/60)) 0 1) ∧
    renderPos true (1/60) 0 ⟨100, 200⟩ ⟨110, 220⟩ = ⟨100, 200⟩ ∧
    renderPos true (1/60) (1/60) ⟨100, 200⟩ ⟨110, 220⟩ = ⟨110, 220⟩ ∧
    renderPos false (1/60) (1/120) ⟨100, 200⟩ ⟨110, 220⟩ = ⟨110, 220⟩ := by
  refine ⟨by norm_num, (c5_render_interpolation (1/60) (1/120) ⟨100, 200⟩ ⟨110, 220⟩).1
    (by norm_num), ?_, ?_, (c5_render_interpolation (1/60) (1/120) ⟨100, 200⟩ ⟨110, 220⟩).2.2.2⟩
  · exact (c5_render_interpolation (1/60) 0 ⟨100, 200⟩ ⟨110, 220⟩).2.1 (by norm_num)
      (by norm_num [clamp])
  · exact (c5_render_interpolation (1/60) (1/60) ⟨100, 200⟩ ⟨110, 220⟩).2.2.1 (by norm_num)
      (by norm_num [clamp])

/-- C6: with the target enabled, after the target advances by vel*dt, a
position beyond a bound is repositioned exactly onto that bound and the
velocity component on that axis is replaced by the absolute value pointing
back inward (+|v| at the low bound, -|v| at the high bound); each axis is
handled independently and the component's magnitude is always unchanged. -/
theorem c6_target_reflection (s : EngineState) (dt : ℚ) (w h margin : ℤ)
    (lx ly : ℚ) (edges : List ℤ) (ae : Bool) (ov : Option (ℚ × ℚ))
    (hen : s.target.enabled = true)
    (hbx : ((margin + s.target.radius_px : ℤ) : ℚ)
      ≤ ((w - margin - s.target.radius_px : ℤ) : ℚ))
    (hby : ((margin + s.target.radius_px : ℤ) : ℚ)
      ≤ ((h - margin - s.target.radius_px : ℤ) : ℚ)) :
    (s.target.pos.x + s.target.vel.x * dt > ((w - margin - s.target.radius_px : ℤ) : ℚ) →
      (engine_step s dt w h margin lx ly edges ae ov).target.pos.x
          = ((w - margin - s.target.radius_px : ℤ) : ℚ) ∧
      (engine_step s dt w h margin lx ly edges ae ov).target.vel.x
          = -|s.target.vel.x|) ∧
    (s.target.pos.x + s.target.vel.x * dt < ((margin + s.target.radius_px : ℤ) : ℚ) →
      (engine_step s dt w h margin lx ly edges ae ov).target.pos.x
          = ((margin + s.target.radius_px : ℤ) : ℚ) ∧
      (engine_step s dt w h margin lx ly edges ae ov).target.vel.x
          = |s.target.vel.x|) ∧
    (s.target.pos.y + s.target.vel.y * dt > ((h - margin - s.target.radius_px : ℤ) : ℚ) →
      (engine_step s dt w h margin lx ly edges ae ov).target.pos.y
          = ((h - margin - s.target.radius_px : ℤ) : ℚ) ∧
      (engine_step s dt w h margin lx ly edges ae ov).target.vel.y
          = -|s.target.vel.y|) ∧
    (s.target.pos.y + s.target.vel.y * dt < ((margin + s.target.radius_px : ℤ) : ℚ) →
      (engine_step s dt w h margin lx ly edges ae ov).target.pos.y
          = ((margin + s.target.radius_px : ℤ) : ℚ) ∧
      (engine_step s dt w h margin lx ly edges ae ov).target.vel.y
          = |s.target.vel.y|) ∧
    |(engine_step s dt w h margin lx ly edges ae ov).target.vel.x| = |s.target.vel.x| ∧
    |(engine_step s dt w h margin lx ly edges ae ov).target.vel.y| = |s.target.vel.y| := by
  have htg : (engine_step s dt w h margin lx ly edges ae ov).target
      = step_target s.target dt w h margin s.ball_radius
          (step_pos s dt w h margin lx ly ov) ae := rfl
  rw [htg]
  simp only [step_target, hen, if_true]
  refine ⟨fun hgt => ?_, fun hlt => ?_, fun hgt => ?_, fun hlt => ?_, ?_, ?_⟩
  · rw [reflect1_high _ _ _ _ hbx hgt]
    exact ⟨rfl, rfl⟩
  · rw [reflect1_low _ _ _ _ hlt]
    exact ⟨rfl, rfl⟩
  · rw [reflect1_high _ _ _ _ hby hgt]
    exact ⟨rfl, rfl⟩
  · rw [reflect1_low _ _ _ _ hlt]
    exact ⟨rfl, rfl⟩
  · exact reflect1_abs _ _ _ _
  · exact reflect1_abs _ _ _ _

/-- Witness for c6_target_reflection: with dt = 3 the sample target (x = 832,
vx = 170) overshoots the right bound 1245 and is reflected onto it. -/
theorem c6_target_reflection_witness :
    targetOnState.target.enabled = true ∧
    targetOnState.target.pos.x + targetOnState.target.vel.x * 3
      > ((1280 - 12 - targetOnState.target.radius_px : ℤ) : ℚ) ∧
    (engine_step targetOnState 3 1280 720 12 0 0 [] false none).target.pos.x
      = ((1280 - 12 - targetOnState.target.radius_px : ℤ) : ℚ) ∧
    (engine_step targetOnState 3 1280 720 12 0 0 [] false none).target.vel.x
      = -|targetOnState.target.vel.x| ∧
    |(engine_step targetOnState 3 1280 720 12 0 0 [] false none).target.vel.y|
      = |targetOnState.target.vel.y| := by
  have h := c6_target_reflection targetOnState 3 1280 720 12 0 0 [] false none rfl
    (by norm_num [targetOnState]) (by norm_num [targetOnState])
  have hgt : targetOnState.target.pos.x + targetOnState.target.vel.x * 3
      > ((1280 - 12 - targetOnState.target.radius_px : ℤ) : ℚ) := by
    norm_num [targetOnState]
  exact ⟨rfl, hgt, (h.1 hgt).1, (h.1 hgt).2, h.2.2.2.2.2⟩

/-- C7: on every controller-mode frame of the main loop, independent of how
many engine ticks fire, the real-time cursor is computed from the pre-tick
simulated pos: with both deadzone-shaped axes exactly zero it is set to pos;
otherwise it advances by (axis * ball_speed) * frame_dt on each axis (frame
delta-time, not the engine tick delta) and is clamped to the canvas. -/
theorem c7_realtime_cursor (fs : FrameState) (raw lx ly : ℚ)
    (inputs : ℕ → InputSample) (fps w h margin : ℤ) :
    ((frame_update fs raw lx ly inputs fps w h margin).controller_cursor
      = cursor_update lx ly fs.controller_cursor fs.engine.pos fs.engine.ball_speed
          (frameDt raw) w h margin fs.engine.ball_radius) ∧
    (lx = 0 ∧ ly = 0 →
      cursor_update lx ly fs.controller_cursor fs.engine.pos fs.engine.ball_speed
          (frameDt raw) w h margin fs.engine.ball_radius = fs.engine.pos) ∧
    (¬(lx = 0 ∧ ly = 0) →
      cursor_update lx ly fs.controller_cursor fs.engine.pos fs.engine.ball_speed
          (frameDt raw) w h margin fs.engine.ball_radius
        = ⟨clamp (fs.controller_cursor.x + (lx * fs.engine.ball_speed) * frameDt raw)
              ((margin + fs.engine.ball_radius : ℤ) : ℚ)
              ((w - margin - fs.engine.ball_radius : ℤ) : ℚ),
           clamp (fs.controller_cursor.y + (ly * fs.engine.ball_speed) * frameDt raw)
              ((margin + fs.engine.ball_radius : ℤ) : ℚ)
              ((h - margin - fs.engine.ball_radius : ℤ) : ℚ)⟩) := by
  refine ⟨rfl, fun hz => ?_, fun hnz => ?_⟩
  · unfold cursor_update
    rw [if_pos hz]
  · unfold cursor_update
    rw [if_neg hnz]

/-- Witness for c7_realtime_cursor: the zero-axes snap and a moving-axes
frame at raw frame delta 1/50. -/
theorem c7_realtime_cursor_witness :
    ((frame_update sampleFrame (1/50) 0 0 (fun _ => zeroSample) 120 1280 720 12).controller_cursor
      = cursor_update 0 0 sampleFrame.controller_cursor sampleFrame.engine.pos
          sampleFrame.engine.ball_speed (frameDt (1/50)) 1280 720 12
          sampleFrame.engine.ball_radius) ∧
    cursor_update 0 0 sampleFrame.controller_cursor sampleFrame.engine.pos
        sampleFrame.engine.ball_speed (frameDt (1/50)) 1280 720 12
        sampleFrame.engine.ball_radius = sampleFrame.engine.pos ∧
    cursor_update 1 0 sampleFrame.controller_cursor sampleFrame.engine.pos
        sampleFrame.engine.ball_speed (frameDt (1/50)) 1280 720 12
        sampleFrame.engine.ball_radius
      = ⟨clamp (sampleFrame.controller_cursor.x
            + ((1 : ℚ) * sampleFrame.engine.ball_speed) * frameDt (1/50))
            ((12 + sampleFrame.engine.ball_radius : ℤ) : ℚ)
            ((1280 - 12 - sampleFrame.engine.ball_radius : ℤ) : ℚ),
         clamp (sampleFrame.controller_cursor.y
            + ((0 : ℚ) * sampleFrame.engine.ball_speed) * frameDt (1/50))
            ((12 + sampleFrame.engine.ball_radius : ℤ) : ℚ)
            ((720 - 12 - sampleFrame.engine.ball_radius : ℤ) : ℚ)⟩ := by
  refine ⟨(c7_realtime_cursor sampleFrame (1/50) 0 0 (fun _ => zeroSample) 120 1280 720 12).1,
    (c7_realtime_cursor sampleFrame (1/50) 0 0 (fun _ => zeroSample) 120 1280 720 12).2.1
      ⟨rfl, rfl⟩,
    (c7_realtime_cursor sampleFrame (1/50) 1 0 (fun _ => zeroSample) 120 1280 720 12).2.2
      (by norm_num)⟩

/-- C3: with the target enabled and a button edge in the tick, engine_step
leaves hit_flash_elapsed = 0 exactly when the squared distance between the
main entity's pos and target.pos (both after this tick's position updates)
is at most (target.radius - entity.radius)^2, boundary inclusive; for larger
distances no reset occurs. The squared form is the code's test and, both
sides being nonnegative, is equivalent to d <= target.radius - entity.radius.
The hypothesis ball_radius <= target.radius_px holds in every reachable
state (size_pct is clamped to at least 120 percent). -/
theorem c3_hit_detection (s : EngineState) (dt : ℚ) (w h margin : ℤ)
    (lx ly : ℚ) (edges : List ℤ) (ov : Option (ℚ × ℚ))
    (hen : s.target.enabled = true) (hdt : 0 < dt)
    (hhf : 0 ≤ s.target.hit_flash_elapsed)
    (hrad : s.ball_radius ≤ s.target.radius_px) :
    (engine_step s dt w h margin lx ly edges true ov).target.hit_flash_elapsed = 0 ↔
      distance_sq (engine_step s dt w h margin lx ly edges true ov).pos.x
          (engine_step s dt w h margin lx ly edges true ov).pos.y
          (engine_step s dt w h margin lx ly edges true ov).target.pos.x
          (engine_step s dt w h margin lx ly edges true ov).target.pos.y
        ≤ ((s.target.radius_px - s.ball_radius : ℤ) : ℚ)
            * ((s.target.radius_px - s.ball_radius : ℤ) : ℚ) := by
  have htg : (engine_step s dt w h margin lx ly edges true ov).target
      = step_target s.target dt w h margin s.ball_radius
          (step_pos s dt w h margin lx ly ov) true := rfl
  have hpp : (engine_step s dt w h margin lx ly edges true ov).pos
      = step_pos s dt w h margin lx ly ov := rfl
  rw [htg, hpp]
  simp only [step_target, hen, if_true]
  have hin : max 0 ((s.target.radius_px - s.ball_radius : ℤ) : ℚ)
      = ((s.target.radius_px - s.ball_radius : ℤ) : ℚ) :=
    max_eq_right (by exact_mod_cast sub_nonneg.mpr hrad)
  rw [hin]
  have hfl : 0 < advance_timer s.target.hit_flash_elapsed TARGET_FLASH_DURATION_S dt :=
    advance_timer_pos _ _ _ hhf (by norm_num [TARGET_FLASH_DURATION_S]) hdt
  split_ifs with hd2
  · exact iff_of_true rfl hd2
  · exact iff_of_false (ne_of_gt hfl) hd2

/-- Witness for c3_hit_detection: ball sitting on the target center; one tick
with a button edge registers a hit. -/
theorem c3_hit_detection_witness :
    targetOnState.target.enabled = true ∧ (0 : ℚ) < 1/120 ∧
    0 ≤ targetOnState.target.hit_flash_elapsed ∧
    targetOnState.ball_radius ≤ targetOnState.target.radius_px ∧
    (engine_step targetOnState (1/120) 1280 720 12 0 0 [0] true none).target.hit_flash_elapsed
      = 0 := by
  have h := c3_hit_detection targetOnState (1/120) 1280 720 12 0 0 [0] none rfl
    (by norm_num) (by norm_num [targetOnState]) (by norm_num [targetOnState])
  refine ⟨rfl, by norm_num, by norm_num [targetOnState], by norm_num [targetOnState],
    h.mpr ?_⟩
  norm_num [engine_step, step_pos, step_pos_raw, step_target, step_visual, advance_timer,
    reflect1, clamp, distance_sq, targetOnState, TARGET_FLASH_DURATION_S, GLOW_DURATION_S]

/-- C1: each main-loop iteration computes frame_dt = min(now - last, 0.25)
and adds it to the accumulator; the drain loop then runs engine_step once per
full engine_dt in the accumulator ((drainLoop dt acc).1 = floor(acc/dt)) and
leaves a leftover accumulator < engine_dt; starting from an empty
accumulator, at engine_rate 60 a 0.0167 s frame fires exactly one tick and a
0.25 s (capped) frame fires at most floor(0.25/engine_dt) ticks. -/
theorem c1_accumulator_drain :
    (∀ raw : ℚ, frameDt raw = min raw (1/4)) ∧
    (∀ dt acc : ℚ, 0 < dt →
      (drainLoop dt acc).1 = ⌊acc / dt⌋₊ ∧
      (drainLoop dt acc).2 = acc - (⌊acc / dt⌋₊ : ℚ) * dt ∧
      (drainLoop dt acc).2 < dt) ∧
    (∀ (fs : FrameState) (raw lx ly : ℚ) (inputs : ℕ → InputSample)
        (fps w h margin : ℤ),
      (frame_update fs raw lx ly inputs fps w h margin).engine
        = stepN w h margin (engineDtOf fps) inputs
            (drainLoop (engineDtOf fps) (fs.accumulator + frameDt raw)).1 fs.engine ∧
      (frame_update fs raw lx ly inputs fps w h margin).accumulator
        = (drainLoop (engineDtOf fps) (fs.accumulator + frameDt raw)).2) ∧
    (drainLoop (engineDtOf 60) (frameDt (167/10000))).1 = 1 ∧
    (∀ fps : ℤ, 1 ≤ fps →
      (drainLoop (engineDtOf fps) (frameDt (1/4))).1
        ≤ ⌊(1/4 : ℚ) / engineDtOf fps⌋₊) := by
  refine ⟨fun raw => rfl, ?_, fun fs raw lx ly inputs fps w h margin => ⟨rfl, rfl⟩, ?_, ?_⟩
  · intro dt acc hdt
    rw [drainLoop_eq dt hdt acc]
    exact ⟨rfl, rfl, by
      have := drainLoop_snd_lt dt acc hdt
      rwa [drainLoop_eq dt hdt acc] at this⟩
  · have h60 : engineDtOf 60 = 1/60 := by norm_num [engineDtOf]
    have hfd : frameDt (167/10000) = 167/10000 := by
      rw [frameDt]
      norm_num
    rw [h60, hfd, drainLoop_eq (1/60) (by norm_num) (167/10000)]
    show ⌊(167 / 10000 : ℚ) / (1/60)⌋₊ = 1
    have harg : (167 / 10000 : ℚ) / (1/60) = 501/500 := by norm_num
    rw [harg, Nat.floor_eq_iff (by norm_num)]
    norm_num
  · intro fps hfps
    have hdt := engineDtOf_pos fps
    have hfd : frameDt (1/4) = 1/4 := min_self _
    rw [hfd, drainLoop_eq _ hdt (1/4)]

/-- Witness for c1_accumulator_drain at dt = 1/60 with accumulator 1/30. -/
theorem c1_accumulator_drain_witness :
    (0 : ℚ) < 1/60 ∧
    (drainLoop (1/60) (1/30)).1 = ⌊(1/30 : ℚ) / (1/60)⌋₊ ∧
    (drainLoop (1/60) (1/30)).2 < 1/60 ∧
    (drainLoop (engineDtOf 60) (frameDt (167/10000))).1 = 1 := by
  have h := c1_accumulator_drain
  exact ⟨by norm_num, (h.2.1 (1/60) (1/30) (by norm_num)).1,
    (h.2.1 (1/60) (1/30) (by norm_num)).2.2, h.2.2.2.1⟩

theorem clamp_int_mem (x lo hi : ℤ) (h : lo ≤ hi) :
    lo ≤ clamp_int x lo hi ∧ clamp_int x lo hi ≤ hi := by
  unfold clamp_int
  split_ifs <;> omega

theorem set_params_vel_lengthSq (vel : ℝ × ℝ) (speed : ℤ) :
    lengthSqR (set_params_vel vel speed)
      = ((clamp_int speed TARGET_SPEED_PX_S_MIN TARGET_SPEED_PX_S_MAX : ℤ) : ℝ) ^ 2 := by
  unfold set_params_vel
  split_ifs with hsm
  · exact lengthSqR_normalize_scale ((1 : ℝ), (0 : ℝ)) (by norm_num [lengthSqR]) _
  · have hpos : 0 < lengthSqR vel := by
      have hge : 1 / 1000000000 ≤ lengthSqR vel := le_of_not_lt hsm
      linarith
    exact lengthSqR_normalize_scale vel hpos _

theorem set_params_vel_ne_zero (vel : ℝ × ℝ) (speed : ℤ) :
    set_params_vel vel speed ≠ ((0 : ℝ), (0 : ℝ)) := by
  have hsp : (60 : ℤ) ≤ clamp_int speed TARGET_SPEED_PX_S_MIN TARGET_SPEED_PX_S_MAX :=
    (clamp_int_mem speed 60 420 (by norm_num)).1
  apply ne_zero_of_lengthSqR_pos
  rw [set_params_vel_lengthSq vel speed]
  have : (0 : ℝ) < ((clamp_int speed TARGET_SPEED_PX_S_MIN TARGET_SPEED_PX_S_MAX : ℤ) : ℝ) := by
    exact_mod_cast lt_of_lt_of_le (by norm_num) hsp
  positivity

theorem reset_vel_lengthSq (ang : ℝ) (speed : ℤ) :
    lengthSqR (reset_vel ang speed) = ((speed : ℤ) : ℝ) ^ 2 := by
  have h1 : lengthSqR (Real.cos ang, Real.sin ang) = 1 := by
    have hsc := Real.sin_sq_add_cos_sq ang
    rw [pow_two, pow_two] at hsc
    unfold lengthSqR
    dsimp only
    linarith
  unfold reset_vel
  dsimp only
  rw [if_neg (by rw [h1]; norm_num)]
  exact lengthSqR_normalize_scale _ (by rw [h1]; norm_num) _

/-- C8: the set_params / reset velocity computations re-seed a (near-)zero
velocity to the unit vector (1, 0) before scaling (so a zero vector yields
exactly (speed, 0)); after either call the squared magnitude of the velocity
equals the square of the (clamped) configured speed and the velocity is
never the zero vector, so the target is never stationary. The real-valued
model has no NaN: every result is a well-defined real pair. -/
theorem c8_velocity_normalization :
    (∀ (vel : ℝ × ℝ) (speed : ℤ), lengthSqR vel < 1 / 1000000000 →
      set_params_vel vel speed
        = (((clamp_int speed TARGET_SPEED_PX_S_MIN TARGET_SPEED_PX_S_MAX : ℤ) : ℝ), 0)) ∧
    (∀ (vel : ℝ × ℝ) (speed : ℤ),
      lengthSqR (set_params_vel vel speed)
        = ((clamp_int speed TARGET_SPEED_PX_S_MIN TARGET_SPEED_PX_S_MAX : ℤ) : ℝ) ^ 2 ∧
      set_params_vel vel speed ≠ ((0 : ℝ), (0 : ℝ))) ∧
    (∀ (ang : ℝ) (speed : ℤ), 0 < speed →
      lengthSqR (reset_vel ang speed) = ((speed : ℤ) : ℝ) ^ 2 ∧
      reset_vel ang speed ≠ ((0 : ℝ), (0 : ℝ))) := by
  refine ⟨?_, fun vel speed => ⟨set_params_vel_lengthSq vel speed,
    set_params_vel_ne_zero vel speed⟩, fun ang speed hsp => ⟨reset_vel_lengthSq ang speed, ?_⟩⟩
  · intro vel speed hsm
    have h1 : lengthSqR ((1 : ℝ), (0 : ℝ)) = 1 := by norm_num [lengthSqR]
    unfold set_params_vel normalizeR
    dsimp only
    rw [if_pos hsm, h1, Real.sqrt_one]
    norm_num
  · apply ne_zero_of_lengthSqR_pos
    rw [reset_vel_lengthSq ang speed]
    have : (0 : ℝ) < ((speed : ℤ) : ℝ) := by exact_mod_cast hsp
    positivity

/-- Witness for c8_velocity_normalization: the zero vector re-seeded at speed
170, the vector (3, 4) re-normalized at speed 170, and a reset at angle 0. -/
theorem c8_velocity_normalization_witness :
    lengthSqR ((0 : ℝ), (0 : ℝ)) < 1 / 1000000000 ∧
    set_params_vel ((0 : ℝ), (0 : ℝ)) 170
      = (((clamp_int 170 TARGET_SPEED_PX_S_MIN TARGET_SPEED_PX_S_MAX : ℤ) : ℝ), 0) ∧
    lengthSqR (set_params_vel ((3 : ℝ), (4 : ℝ)) 170)
      = ((clamp_int 170 TARGET_SPEED_PX_S_MIN TARGET_SPEED_PX_S_MAX : ℤ) : ℝ) ^ 2 ∧
    set_params_vel ((3 : ℝ), (4 : ℝ)) 170 ≠ ((0 : ℝ), (0 : ℝ)) ∧
    (0 : ℤ) < 170 ∧
    lengthSqR (reset_vel 0 170) = (((170 : ℤ) : ℝ)) ^ 2 ∧
    reset_vel 0 170 ≠ ((0 : ℝ), (0 : ℝ)) := by
  have hsmall : lengthSqR ((0 : ℝ), (0 : ℝ)) < 1 / 1000000000 := by norm_num [lengthSqR]
  have h := c8_velocity_normalization
  exact ⟨hsmall, h.1 _ _ hsmall, (h.2.1 ((3 : ℝ), (4 : ℝ)) 170).1,
    (h.2.1 ((3 : ℝ), (4 : ℝ)) 170).2, by norm_num,
    (h.2.2 0 170 (by norm_num)).1, (h.2.2 0 170 (by norm_num)).2⟩

end ReXact
